import Mathlib

/-!
Verification of the BPE tokenizer core of `src/lib/tokenizer.js` (class
`CustomTokenizer`).  The JavaScript code is shallowly embedded: JS `Map`s
become insertion-ordered association lists (JS `Map` iteration order is
insertion order, and `Map.set` on an existing key updates the value in
place without moving the entry), JS strings are treated as sequences of
Unicode code points (matching `for...of`, `Array.from`, and `new Set` on
strings, which all iterate code points), and JS numbers appearing here are
naturals / integers (all ids and counts in the source are small integers).
Exceptions are modelled with `Except`.
-/

/-- Insertion-ordered association list modelling a JS `Map`.
The JS `Map` keeps keys in insertion order; `set` of an existing key
overwrites the value in place.  All maps in this development are built
from `[]` by `setVal`, so keys are pairwise distinct and `List.length`
coincides with JS `Map.size`. -/
abbrev JMap (α β : Type) : Type := List (α × β)

/-- `Map.get`: value of the first (unique) entry with the given key. -/
def JMap.getVal {α β : Type} [DecidableEq α] : JMap α β → α → Option β
  | [], _ => none
  | p :: rest, k => if p.1 = k then some p.2 else JMap.getVal rest k

/-- `Map.has`: key-membership test. -/
def JMap.hasKey {α β : Type} [DecidableEq α] : JMap α β → α → Bool
  | [], _ => false
  | p :: rest, k => if p.1 = k then true else JMap.hasKey rest k

/-- `Map.set`: update in place if the key is present, else append. -/
def JMap.setVal {α β : Type} [DecidableEq α] (m : JMap α β) (k : α) (v : β) : JMap α β :=
  if m.hasKey k then m.map (fun p => if p.1 = k then (k, v) else p) else m ++ [(k, v)]

/-- Characters matched by the JS regexp class `\s` (used by `/\s+/g` in
`preprocessText`) and removed by `String.prototype.trim`. -/
def jsWhitespace (c : Char) : Bool :=
  c = ' ' || c = '\t' || c = '\n' || c.toNat = 11 || c.toNat = 12 || c = '\r' ||
  c.toNat = 0xa0 || c.toNat = 0x1680 || (0x2000 ≤ c.toNat && c.toNat ≤ 0x200a) ||
  c.toNat = 0x2028 || c.toNat = 0x2029 || c.toNat = 0x202f || c.toNat = 0x205f ||
  c.toNat = 0x3000 || c.toNat = 0xfeff

/-- `text.replace(/\s+/g, ' ')` on the code-point list: every maximal run
of whitespace becomes a single space.  The boolean flag records whether
the previous character belonged to a whitespace run. -/
def collapseWsAux : Bool → List Char → List Char
  | _, [] => []
  | prevWs, c :: cs =>
    if jsWhitespace c then
      if prevWs then collapseWsAux true cs else ' ' :: collapseWsAux true cs
    else c :: collapseWsAux false cs

/-- `String.prototype.trim`: strip JS whitespace from both ends. -/
def jsTrim (s : String) : String :=
  String.mk (((s.toList.dropWhile jsWhitespace).reverse.dropWhile jsWhitespace).reverse)

/-- `text.split(' ')`: split on every single space character (JS keeps
empty pieces; the caller filters them out). -/
def splitOnSpaceGo : List Char → List Char → List (List Char)
  | cur, [] => [cur.reverse]
  | cur, c :: cs => if c = ' ' then cur.reverse :: splitOnSpaceGo [] cs else splitOnSpaceGo (c :: cur) cs

/-- `pair.split('|||')` in `getBestPair`: leftmost, non-overlapping
occurrences of the three-bar separator delimit the pieces, exactly as JS
`String.prototype.split` with the string separator `'|||'`. -/
def splitBarsGo : List Char → List Char → List (List Char)
  | cur, [] => [cur.reverse]
  | cur, '|' :: '|' :: '|' :: rest => cur.reverse :: splitBarsGo [] rest
  | cur, c :: rest => splitBarsGo (c :: cur) rest

/-- `pair.split('|||')` as a string operation. -/
def splitBars (s : String) : List String :=
  (splitBarsGo [] s.toList).map String.mk

/-- Backquote character, the second character of the JS replacement
pattern for "portion before the match". -/
def backquoteChar : Char := Char.ofNat 96

/-- Single-quote character, the second character of the JS replacement
pattern for "portion after the match". -/
def singleQuoteChar : Char := Char.ofNat 39

/-- Expansion of a JS replacement string (ECMA-262 GetSubstitution) for a
regexp without capture groups: the dollar patterns recognised are dollar,
ampersand, backquote and quote; anything else is literal.  `before` and
`after` are the portions of the original subject string around the match,
`matched` the matched text. -/
def expandRepl (before matched after : List Char) : List Char → List Char
  | [] => []
  | '$' :: c :: rest =>
    if c = '$' then '$' :: expandRepl before matched after rest
    else if c = '&' then matched ++ expandRepl before matched after rest
    else if c = backquoteChar then before ++ expandRepl before matched after rest
    else if c = singleQuoteChar then after ++ expandRepl before matched after rest
    else '$' :: expandRepl before matched after (c :: rest)
  | c :: rest => c :: expandRepl before matched after rest

/-- `word.replace(new RegExp(escapeRegExp(first) + escapeRegExp(second), 'g'), first + second)`:
`escapeRegExp` escapes every regexp metacharacter, so the compiled regexp
matches exactly the literal string `pat = first + second`; the replacement
string `repl = first + second` goes through GetSubstitution (`expandRepl`).
Matches are found leftmost and are non-overlapping (the 'g' flag resumes
after the end of each match).  `before` accumulates the original
characters already consumed; `fuel` starts at the subject length and
strictly dominates it, so the `fuel = 0` case is unreachable.  `pat` is
nonempty for every reachable call: it is the concatenation of the two
pieces of a `'|||'`-keyed pair, which always has length at least one. -/
def jsReplaceGo (pat repl : List Char) : Nat → List Char → List Char → List Char
  | 0, _, rest => rest
  | _ + 1, _, [] => []
  | fuel + 1, before, c :: cs =>
    if pat ≠ [] ∧ pat.isPrefixOf (c :: cs) then
      expandRepl before pat ((c :: cs).drop pat.length) repl ++
        jsReplaceGo pat repl fuel (before ++ pat) ((c :: cs).drop pat.length)
    else c :: jsReplaceGo pat repl fuel (before ++ [c]) cs

/-- Global literal-pattern string replacement with JS replacement-string
semantics. -/
def jsReplaceAll (pat repl subject : List Char) : List Char :=
  jsReplaceGo pat repl subject.length [] subject

/-- Insertion-order deduplication: `Array.from(new Set(s))` keeps the
first occurrence of every element, in order. -/
def dedupFirstAux (seen : List Char) : List Char → List Char
  | [] => []
  | c :: cs =>
    if seen.contains c then dedupFirstAux seen cs
    else c :: dedupFirstAux (seen ++ [c]) cs

/-- `Array.from(new Set(l))` on a code-point list. -/
def dedupFirst (l : List Char) : List Char := dedupFirstAux [] l

/-- JS `a || b` on an optional number: `undefined` and `0` are falsy. -/
def jsOrNat (a : Option Nat) (b : Nat) : Nat :=
  match a with
  | some v => if v = 0 then b else v
  | none => b

/-- JS `a || b` on an optional string: `undefined` and `''` are falsy. -/
def jsOrStr (a : Option String) (b : String) : String :=
  match a with
  | some s => if s = "" then b else s
  | none => b

/-- State of a `CustomTokenizer` instance: the four fields of the class.
`merges` stores the arrays produced by `pair.split('|||')`, exactly as
`this.merges.push(bestPair)` does. -/
structure CustomTokenizer : Type where
  vocab : JMap String Nat
  merges : List (List String)
  specialTokens : JMap String Nat
  decoder : JMap Nat String
deriving DecidableEq, Repr

/-- The fixed ordered list of reserved symbols (`specials` in
`initializeSpecialTokens`). -/
def specialsList : List String :=
  ["<|endoftext|>", "<|startoftext|>", "<|unknown|>", "<|space|>"]

/-- `initializeSpecialTokens`: register each reserved symbol under its
declaration index and record the inverse entry in the decoder.
(The source method name contains a word the Lean toolchain reserves, so
it is shortened here.) -/
def initSpecialTokens (st : CustomTokenizer) : CustomTokenizer :=
  specialsList.enum.foldl
    (fun s p =>
      { s with specialTokens := s.specialTokens.setVal p.2 p.1,
               decoder := s.decoder.setVal p.1 p.2 })
    st

/-- The constructor: four empty tables, then `initializeSpecialTokens`. -/
def mkTokenizer : CustomTokenizer :=
  initSpecialTokens { vocab := [], merges := [], specialTokens := [], decoder := [] }

/-- The fixed punctuation/whitespace seed appended to the corpus before
alphabet extraction (the braces are the literal characters). -/
def seedChars : String := " \n\t!@#$%^&*()[]\x7b\x7d"

/-- The alphabet-seeding prefix of `trainFromText`:
`Array.from(new Set(text + ' \n\t!@#$%^&*()[]{}'))`, then for each
character in first-occurrence order, `tokenId = specialTokens.size + idx`,
`vocab.set(char, tokenId)`, `decoder.set(tokenId, char)`. -/
def seedAlphabet (st : CustomTokenizer) (text : String) : CustomTokenizer :=
  let chars := dedupFirst (text ++ seedChars).toList
  chars.enum.foldl
    (fun s p =>
      let tokenId := s.specialTokens.length + p.1
      { s with vocab := s.vocab.setVal (String.mk [p.2]) tokenId,
               decoder := s.decoder.setVal tokenId (String.mk [p.2]) })
    st

/-- `preprocessText`: normalise whitespace runs to single spaces, split on
spaces, keep the pieces whose trimmed length is positive. -/
def preprocessText (text : String) : List String :=
  ((splitOnSpaceGo [] (collapseWsAux false text.toList)).map String.mk).filter
    (fun w => (jsTrim w).length > 0)

/-- The `'|||'`-separated key used in the pair-frequency table:
`chars[i] + '|||' + chars[i+1]`. -/
def pairKey (a b : Char) : String := String.mk [a] ++ "|||" ++ String.mk [b]

/-- The body of the inner loop of `getPairs`:
`pairs.set(pair, (pairs.get(pair) || 0) + 1)`.  Stored counts are never 0,
so the falsy case of `||` only handles an absent key, which is `getD 0`. -/
def bumpPair (ps : JMap String Nat) (ab : Char × Char) : JMap String Nat :=
  let key := pairKey ab.1 ab.2
  ps.setVal key ((ps.getVal key).getD 0 + 1)

/-- `getPairs`: for every word, split it into code points
(`Array.from(word)`) and count every adjacent pair; `chars.zip chars.tail`
enumerates exactly the pairs `(chars[i], chars[i+1])` for `i < length - 1`. -/
def getPairs (words : List String) : JMap String Nat :=
  words.foldl
    (fun pairs word =>
      let chars := word.toList
      (chars.zip chars.tail).foldl bumpPair pairs)
    []

/-- The `for (const [pair, count] of pairs)` loop of `getBestPair`: keep
the first entry whose count strictly exceeds the running maximum (which
starts at 0), remembering its key split on `'|||'`. -/
def bestLoop : List (String × Nat) → Option (List String) → Nat → Option (List String)
  | [], best, _ => best
  | (k, c) :: rest, best, maxCount =>
    if c > maxCount then bestLoop rest (some (splitBars k)) c
    else bestLoop rest best maxCount

/-- `getBestPair`: `null` on an empty table, otherwise the result of the
scan. -/
def getBestPair (pairs : JMap String Nat) : Option (List String) :=
  if pairs.length = 0 then none else bestLoop pairs none 0

/-- `mergePair`: rewrite every word by the global regexp replacement of
the literal `first + second` with the replacement string `first + second`.
JS array destructuring `const [first, second] = pair` is `headD` /
`getD 1`; every key produced by `pairKey` contains `'|||'`, so the split
always has at least two pieces and the defaults are unreachable. -/
def mergePair (words : List String) (pair : List String) : List String :=
  let first := pair.headD ""
  let second := pair.getD 1 ""
  words.map (fun word =>
    String.mk (jsReplaceAll (first ++ second).toList (first ++ second).toList word.toList))

/-- One-iteration-at-a-time embedding of the training loop
`for (let i = 0; i < Math.min(2000, vocabSize - this.vocab.size); i++)`.
The loop condition is re-evaluated against the current `vocab.size` each
iteration; `vocabSize - this.vocab.size` is JS number subtraction, hence
computed in `Int`.  `fuel` is `2000 - i`, so when it reaches 0 we have
`i = 2000` and the JS condition `i < min 2000 _` is false as well: the
two exits agree. -/
def trainLoopAux (vocabSize : Nat) : Nat → Nat → List String → CustomTokenizer → CustomTokenizer
  | 0, _, _, st => st
  | fuel + 1, i, words, st =>
    if (i : Int) < min 2000 ((vocabSize : Int) - (st.vocab.length : Int)) then
      let pairs := getPairs words
      if pairs.length = 0 then st
      else
        match getBestPair pairs with
        | none => st
        | some bestPair =>
          let words2 := mergePair words bestPair
          let newToken := bestPair.headD "" ++ bestPair.getD 1 ""
          let tokenId := st.vocab.length
          let st2 : CustomTokenizer :=
            { st with merges := st.merges ++ [bestPair],
                      vocab := st.vocab.setVal newToken tokenId,
                      decoder := st.decoder.setVal tokenId newToken }
          trainLoopAux vocabSize fuel (i + 1) words2 st2
    else st

/-- `trainFromText(text, vocabSize = 8000)` for a string corpus: seed the
alphabet, segment the corpus, run the merge loop. -/
def trainFromText (st : CustomTokenizer) (text : String) (vocabSize : Nat := 8000) :
    CustomTokenizer :=
  let st1 := seedAlphabet st text
  let words := preprocessText text
  trainLoopAux vocabSize 2000 0 words st1

/-- `encode`: `[]` on falsy input (the empty string); otherwise one id per
code point, `vocab.get(char) || specialTokens.get('<|unknown|>') || 2`
(`||` treats both `undefined` and `0` as falsy). -/
def encode (st : CustomTokenizer) (text : String) : List Nat :=
  if text = "" then []
  else
    text.toList.map (fun c =>
      jsOrNat (st.vocab.getVal (String.mk [c]))
        (jsOrNat (st.specialTokens.getVal "<|unknown|>") 2))

/-- `decode` on an array of ids: `decoder.get(token) || '<|unknown|>'`
for each id, concatenated with no separator.  (The `Array.isArray` guard
of the source only concerns non-array arguments, which the list type
excludes.) -/
def decode (st : CustomTokenizer) (tokens : List Nat) : String :=
  String.join (tokens.map (fun t => jsOrStr (st.decoder.getVal t) "<|unknown|>"))

/-- `getVocabSize`: `this.vocab.size`. -/
def getVocabSize (st : CustomTokenizer) : Nat := st.vocab.length

/-- `getTokenText`: `this.decoder.get(tokenId) || '<|unknown|>'`. -/
def getTokenText (st : CustomTokenizer) (tokenId : Nat) : String :=
  jsOrStr (st.decoder.getVal tokenId) "<|unknown|>"

/-- A JS value passed as the `text` argument of `trainFromText`: a string,
`null`, or `undefined`. -/
inductive JSVal : Type
  | str (s : String)
  | nullV
  | undefinedV
deriving DecidableEq, Repr

/-- JS string coercion as performed by `text + ' \n\t!@#$%^&*()[]{}'`. -/
def jsToString : JSVal → String
  | .str s => s
  | .nullV => "null"
  | .undefinedV => "undefined"

/-- `trainFromText` on an arbitrary JS value.  The alphabet seeding runs
first (string concatenation coerces `null`/`undefined` to their names),
then `this.preprocessText(text)` calls `text.replace`, which throws a
`TypeError` when `text` is not a string; the error carries the state of
the instance at the moment of the throw (the seeding mutations have
already happened). -/
def trainFromTextJS (st : CustomTokenizer) (text : JSVal) (vocabSize : Nat := 8000) :
    Except (String × CustomTokenizer) CustomTokenizer :=
  let st1 := seedAlphabet st (jsToString text)
  match text with
  | .str s => .ok (trainLoopAux vocabSize 2000 0 (preprocessText s) st1)
  | _ => .error ("TypeError: text.replace is not a function", st1)

/-! ## Shared concrete training runs used by several claims -/

/-- The tokenizer trained on the corpus `"ab ab ab ac"` with target
vocabulary size 21: the seeded alphabet has 20 characters ending at id 23,
and exactly one merge iteration runs. -/
def trained21 : CustomTokenizer := trainFromText mkTokenizer "ab ab ab ac" 21

/-- The tokenizer trained on the corpus `"ab ab ab ac"` with target
vocabulary size 23: exactly two merge iterations run. -/
def trained23 : CustomTokenizer := trainFromText mkTokenizer "ab ab ab ac" 23

/-! ## Claim theorems -/

/-- C1: the round-trip property fails.  After training on
`"ab ab ab ac"` with target size 21, the character `[` is in the trained
alphabet with id 20, but the single merge token `"ab"` was assigned
`tokenId = vocab.size = 20` (the id computation forgets the four special
tokens, which shift alphabet ids up by 4), and `decoder.set(20, "ab")`
overwrote the decoder entry of `[`; hence
`decode(encode("[")) = "ab" ≠ "["`. -/
theorem c1_roundtrip_fails :
    trained21.vocab.getVal "[" = some 20 ∧
    encode trained21 "[" = [20] ∧
    decode trained21 (encode trained21 "[") = "ab" ∧
    decode trained21 (encode trained21 "[") ≠ "[" := by decide

/-- C2: monotonic id assignment fails.  After training on
`"ab ab ab ac"` with target size 21, the id 23 had already been assigned
(to the alphabet character `}`), yet the merge entry `"ab"` is assigned
the smaller id 20, which moreover had already been assigned to the
alphabet character `[`; the decoder entry of id 20 is reassigned from
`"["` to `"ab"`. -/
theorem c2_id_reuse :
    trained21.vocab.getVal "\x7d" = some 23 ∧
    trained21.merges = [["a", "b"]] ∧
    trained21.vocab.getVal "[" = some 20 ∧
    trained21.vocab.getVal "ab" = some 20 ∧
    trained21.decoder.getVal 20 = some "ab" := by decide

/-- C3: the decoder-bijectivity invariant fails after the first training
iteration.  In `trained21`, the two distinct vocabulary symbols `[` and
`"ab"` share id 20, and the decoder maps 20 to `"ab"`, so the decoder is
not the inverse of the vocabulary at the point where training completes
(nor after the iteration that assigned id 20). -/
theorem c3_decoder_not_inverse :
    trained21.vocab.getVal "[" = some 20 ∧
    trained21.vocab.getVal "ab" = some 20 ∧
    ("[" : String) ≠ "ab" ∧
    trained21.decoder.getVal 20 = some "ab" := by decide

/-- C4: the merge step does not collapse words.  Words are plain strings,
so replacing the chosen pair with its concatenation is the identity
rewrite, and `getPairs` re-splits every word into single characters: after
merging `("a", "b")` over the words of `"ab ab ab ac"`, the words are
unchanged and the pair `("a", "b")` is still counted 3 times — it does
not become a single symbol.  Consequently training keeps selecting the
same pair: with target size 23 the recorded merges are
`[["a","b"], ["a","b"]]`. -/
theorem c4_merge_is_noop :
    mergePair ["ab", "ab", "ab", "ac"] ["a", "b"] = ["ab", "ab", "ab", "ac"] ∧
    (getPairs (mergePair (preprocessText "ab ab ab ac") ["a", "b"])).getVal "a|||b" = some 3 ∧
    trained23.merges = [["a", "b"], ["a", "b"]] := by decide

/-- C5: the merge-rule count identity fails.  Training on `"ab ab ab ac"`
with target size 23 records 2 merge rules, but the vocabulary grew from
the 20 seeded characters to only 21 entries (the second merge re-added the
existing key `"ab"`, which does not grow the map).  The count 2 differs
from final-size-minus-alphabet-minus-specials under both readings of
"final vocabulary size" (with the 4 special tokens included, 25 − 20 − 4
= 1; with `getVocabSize`, 21 − 20 − 4 = −3). -/
theorem c5_merge_count_mismatch :
    trained23.merges.length = 2 ∧
    (seedAlphabet mkTokenizer "ab ab ab ac").vocab.length = 20 ∧
    trained23.specialTokens.length = 4 ∧
    trained23.vocab.length = 21 ∧
    ((trained23.merges.length : Int) ≠
      ((trained23.vocab.length : Int) + (trained23.specialTokens.length : Int)) - 20 - 4) ∧
    ((trained23.merges.length : Int) ≠ (trained23.vocab.length : Int) - 20 - 4) := by decide

/-- C10: `getVocabSize` counts only alphabet and merge entries, never the
four special tokens: on a freshly constructed tokenizer it returns 0,
while `decode` and `getTokenText` already resolve ids 0 through 3 to the
special-token strings. -/
theorem c10_vocab_size_excludes_specials :
    getVocabSize mkTokenizer = 0 ∧
    mkTokenizer.specialTokens.length = 4 ∧
    decode mkTokenizer [0, 1, 2, 3] = "<|endoftext|><|startoftext|><|unknown|><|space|>" ∧
    getTokenText mkTokenizer 0 = "<|endoftext|>" ∧
    getTokenText mkTokenizer 1 = "<|startoftext|>" ∧
    getTokenText mkTokenizer 2 = "<|unknown|>" ∧
    getTokenText mkTokenizer 3 = "<|space|>" := by decide

/-! ## C6: tie-break policy -/

/-- C6 (counterexample): on the corpus `"ba ab"` the two pairs
`("b","a")` and `("a","b")` both occur exactly once, so both are maximal;
the lexicographically smallest is `("a","b")` (its left component `"a"`
is smaller than `"b"`), yet the recorded merge is `["b","a"]` — the first
pair inserted into the frequency table, not the lexicographically
smallest one. -/
theorem c6_tiebreak_counterexample :
    getPairs (preprocessText "ba ab") = [("b|||a", 1), ("a|||b", 1)] ∧
    (trainFromText mkTokenizer "ba ab" 20).merges = [["b", "a"]] ∧
    (⟨"a", "b"⟩ : String × String) ≠ ⟨"b", "a"⟩ ∧
    ('a' : Char) < 'b' := by decide

/-- If no entry of the table beats the running maximum, the scan keeps
its current best. -/
theorem bestLoop_of_all_le (ps : List (String × Nat)) (best : Option (List String))
    (maxc : Nat) (h : ∀ p ∈ ps, p.2 ≤ maxc) : bestLoop ps best maxc = best := by
  induction ps generalizing best maxc with
  | nil => rfl
  | cons hd tl ih =>
    obtain ⟨k, c⟩ := hd
    have hc : c ≤ maxc := h (k, c) (List.mem_cons_self _ _)
    simp only [bestLoop, if_neg (by omega : ¬ c > maxc)]
    exact ih best maxc (fun p hp => h p (List.mem_cons_of_mem _ hp))

/-- Characterisation of the `getBestPair` scan: either no entry exceeds
the running maximum and the current best survives, or the result is the
first entry attaining the (strictly larger) maximal count; every entry
before it counts strictly less, every entry after it at most as much. -/
theorem bestLoop_spec (ps : List (String × Nat)) (best : Option (List String)) (maxc : Nat) :
    ((∀ p ∈ ps, p.2 ≤ maxc) ∧ bestLoop ps best maxc = best) ∨
    (∃ ps₁ k c ps₂, ps = ps₁ ++ (k, c) :: ps₂ ∧
      bestLoop ps best maxc = some (splitBars k) ∧ maxc < c ∧
      (∀ p ∈ ps₁, p.2 < c) ∧ (∀ p ∈ ps₂, p.2 ≤ c)) := by
  induction ps generalizing best maxc with
  | nil => exact Or.inl ⟨by simp, rfl⟩
  | cons hd tl ih =>
    obtain ⟨k0, c0⟩ := hd
    by_cases h0 : c0 > maxc
    · rcases ih (some (splitBars k0)) c0 with ⟨hle, heq⟩ | ⟨ps₁, k, c, ps₂, heq, hres, hlt, h₁, h₂⟩
      · refine Or.inr ⟨[], k0, c0, tl, by simp, ?_, h0, by simp, hle⟩
        simpa only [bestLoop, if_pos h0] using heq
      · refine Or.inr ⟨(k0, c0) :: ps₁, k, c, ps₂, by simp [heq], ?_, lt_trans h0 hlt, ?_, h₂⟩
        · simpa only [bestLoop, if_pos h0] using hres
        · intro p hp
          rcases List.mem_cons.mp hp with rfl | hp
          · exact hlt
          · exact h₁ p hp
    · rcases ih best maxc with ⟨hle, heq⟩ | ⟨ps₁, k, c, ps₂, heq, hres, hlt, h₁, h₂⟩
      · refine Or.inl ⟨?_, ?_⟩
        · intro p hp
          rcases List.mem_cons.mp hp with rfl | hp
          · omega
          · exact hle p hp
        · simpa only [bestLoop, if_neg h0] using heq
      · refine Or.inr ⟨(k0, c0) :: ps₁, k, c, ps₂, by simp [heq], ?_, hlt, ?_, h₂⟩
        · simpa only [bestLoop, if_neg h0] using hres
        · intro p hp
          rcases List.mem_cons.mp hp with rfl | hp
          · omega
          · exact h₁ p hp

/-- Every entry of a `setVal` result comes from the original map or
carries the newly set value. -/
theorem JMap.mem_setVal {α β : Type} [DecidableEq α] (m : JMap α β) (k : α) (v : β)
    (p : α × β) (hp : p ∈ m.setVal k v) : p ∈ m ∨ p.2 = v := by
  unfold JMap.setVal at hp
  split at hp
  · rcases List.mem_map.mp hp with ⟨q, hq, heq⟩
    by_cases h : q.1 = k
    · right
      rw [← heq]
      simp [h]
    · left
      rw [if_neg h] at heq
      rw [← heq]
      exact hq
  · rcases List.mem_append.mp hp with h | h
    · exact Or.inl h
    · right
      rw [List.mem_singleton.mp h]

/-- All counts produced by the inner fold of `getPairs` are positive,
provided the accumulator's counts are. -/
theorem pairsFold_pos (l : List (Char × Char)) (acc : JMap String Nat)
    (hacc : ∀ p ∈ acc, 1 ≤ p.2) : ∀ p ∈ l.foldl bumpPair acc, 1 ≤ p.2 := by
  induction l generalizing acc with
  | nil => exact hacc
  | cons hd tl ih =>
    simp only [List.foldl_cons]
    apply ih
    intro p hp
    rcases JMap.mem_setVal _ _ _ p hp with h | h
    · exact hacc p h
    · omega

/-- Every count recorded by `getPairs` is positive. -/
theorem getPairs_pos (words : List String) : ∀ p ∈ getPairs words, 1 ≤ p.2 := by
  unfold getPairs
  suffices h : ∀ (ws : List String) (acc : JMap String Nat), (∀ p ∈ acc, 1 ≤ p.2) →
      ∀ p ∈ ws.foldl (fun pairs word => ((word.toList).zip (word.toList).tail).foldl bumpPair pairs) acc,
        1 ≤ p.2 by
    exact h words [] (by simp)
  intro ws
  induction ws with
  | nil => intro acc hacc; exact hacc
  | cons w tl ih =>
    intro acc hacc
    simp only [List.foldl_cons]
    exact ih _ (pairsFold_pos _ acc hacc)

/-- C6 (amended): in every training iteration the selected pair is one
with maximal frequency over the current pair table, and among all pairs
with that maximal frequency it is the one whose key was inserted first
(first-occurrence order of the left-to-right scan of the words) — not the
lexicographically smallest pair. -/
theorem c6_best_pair_first_max (words : List String) (h : getPairs words ≠ []) :
    ∃ ps₁ k c ps₂, getPairs words = ps₁ ++ (k, c) :: ps₂ ∧
      getBestPair (getPairs words) = some (splitBars k) ∧
      (∀ p ∈ getPairs words, p.2 ≤ c) ∧
      (∀ p ∈ ps₁, p.2 < c) := by
  have hpos := getPairs_pos words
  rcases bestLoop_spec (getPairs words) none 0 with ⟨hle, _⟩ | ⟨ps₁, k, c, ps₂, heq, hres, _, h₁, h₂⟩
  · exfalso
    rcases List.exists_mem_of_ne_nil _ h with ⟨p, hp⟩
    have := hpos p hp
    have := hle p hp
    omega
  · refine ⟨ps₁, k, c, ps₂, heq, ?_, ?_, h₁⟩
    · unfold getBestPair
      rw [if_neg (by simpa using List.length_pos_iff_ne_nil.mpr h |>.ne')]
      exact hres
    · intro p hp
      rw [heq] at hp
      rcases List.mem_append.mp hp with hp | hp
      · exact le_of_lt (h₁ p hp)
      · rcases List.mem_cons.mp hp with rfl | hp
        · exact le_refl _
        · exact h₂ p hp

/-- C6 witness: the amended theorem applied to the single word `"ab"`,
whose pair table is the single maximal entry `("a|||b", 1)`. -/
theorem c6_best_pair_first_max_witness :
    getPairs ["ab"] ≠ [] ∧
    (∃ ps₁ k c ps₂, getPairs ["ab"] = ps₁ ++ (k, c) :: ps₂ ∧
      getBestPair (getPairs ["ab"]) = some (splitBars k) ∧
      (∀ p ∈ getPairs ["ab"], p.2 ≤ c) ∧
      (∀ p ∈ ps₁, p.2 < c)) :=
  ⟨by decide, c6_best_pair_first_max ["ab"] (by decide)⟩

/-! ## C7: bounded growth -/

/-- C7 (counterexample): alphabet seeding ignores the target entirely, so
training `"ab ab ab ac"` with `targetVocabSize = 5` (which exceeds the
special-token count, as the spec's precondition requires) leaves a
vocabulary of 20 entries. -/
theorem c7_bounded_growth_counterexample :
    getVocabSize (trainFromText mkTokenizer "ab ab ab ac" 5) = 20 ∧
    ¬ getVocabSize (trainFromText mkTokenizer "ab ab ab ac" 5) ≤ 5 := by decide

/-- `Map.set` grows the map by at most one entry. -/
theorem JMap.length_setVal_le {α β : Type} [DecidableEq α] (m : JMap α β) (k : α) (v : β) :
    (m.setVal k v).length ≤ m.length + 1 := by
  unfold JMap.setVal
  split
  · simp
  · simp

/-- The training loop never pushes the vocabulary past the target: each
iteration requires `i < vocabSize - vocab.size` with `i ≥ 0`, hence
`vocab.size < vocabSize` on entry, and adds at most one entry. -/
theorem trainLoopAux_vocab_le (target : Nat) :
    ∀ (fuel i : Nat) (words : List String) (st : CustomTokenizer),
      st.vocab.length ≤ target → (trainLoopAux target fuel i words st).vocab.length ≤ target := by
  intro fuel
  induction fuel with
  | zero => intro i words st h; exact h
  | succ n ih =>
    intro i words st h
    rw [trainLoopAux]
    split
    · next hcond =>
      have hmin : (i : Int) < (target : Int) - (st.vocab.length : Int) :=
        lt_of_lt_of_le hcond (min_le_right _ _)
      have hlt : st.vocab.length < target := by omega
      dsimp only
      split
      · exact h
      · split
        · exact h
        · apply ih
          calc (st.vocab.setVal _ _).length ≤ st.vocab.length + 1 :=
                JMap.length_setVal_le _ _ _
            _ ≤ target := by omega
    · exact h

/-- C7 (amended): whenever the vocabulary right after alphabet seeding
does not already exceed `targetVocabSize`, the final `getVocabSize` is at
most `targetVocabSize`.  (The counterexample shows the unconditional
claim fails exactly when seeding overshoots the target.) -/
theorem c7_bounded_growth_amended (text : String) (target : Nat)
    (h : getVocabSize (seedAlphabet mkTokenizer text) ≤ target) :
    getVocabSize (trainFromText mkTokenizer text target) ≤ target :=
  trainLoopAux_vocab_le target 2000 0 (preprocessText text) (seedAlphabet mkTokenizer text) h

/-- C7 witness: the empty corpus seeds exactly the 17 fixed punctuation
characters, so training with target 17 stays within the bound. -/
theorem c7_bounded_growth_amended_witness :
    getVocabSize (seedAlphabet mkTokenizer "") ≤ 17 ∧
    getVocabSize (trainFromText mkTokenizer "" 17) ≤ 17 :=
  ⟨by decide, c7_bounded_growth_amended "" 17 (by decide)⟩

/-! ## C8: train never throws -/

/-- C8 (counterexample): `trainFromText(null)` throws.  String
concatenation coerces `null` to `"null"`, so the alphabet is seeded from
the coerced string, and then `this.preprocessText(text)` calls
`text.replace` on the non-string value, raising a `TypeError` — the call
does not complete, and the corpus was not treated as empty (the seeding
even added `n`, `u`, `l` to the alphabet). -/
theorem c8_null_corpus_throws :
    trainFromTextJS mkTokenizer JSVal.nullV 8000 =
      Except.error ("TypeError: text.replace is not a function",
        seedAlphabet mkTokenizer "null") := rfl

/-- C8 (amended): for every *string* corpus — including the empty string —
`trainFromText` completes without raising and returns the trained state;
only non-string corpora (`null`, `undefined`) make it throw. -/
theorem c8_string_corpus_never_throws (st : CustomTokenizer) (s : String) (n : Nat) :
    trainFromTextJS st (JSVal.str s) n = Except.ok (trainFromText st s n) := rfl

/-! ## C9: determinism -/

/-- C9: training is deterministic — two `trainFromText` runs on freshly
constructed tokenizer instances with the same corpus and the same target
size produce identical vocabulary, decoder, and merge-rule tables.  (In
this embedding training is a pure function of the instance state, which
is faithful: JS `Map` iteration order is the specified insertion order,
so the source has no hidden nondeterminism either.) -/
theorem c9_train_deterministic (corpus : String) (target : Nat)
    (st1 st2 : CustomTokenizer) (h1 : st1 = mkTokenizer) (h2 : st2 = mkTokenizer) :
    (trainFromText st1 corpus target).vocab = (trainFromText st2 corpus target).vocab ∧
    (trainFromText st1 corpus target).decoder = (trainFromText st2 corpus target).decoder ∧
    (trainFromText st1 corpus target).merges = (trainFromText st2 corpus target).merges := by
  subst h1
  subst h2
  exact ⟨rfl, rfl, rfl⟩

/-- C9 witness: the determinism theorem applied to two fresh instances
and the corpus `"ab ab"` with target 25. -/
theorem c9_train_deterministic_witness :
    mkTokenizer = mkTokenizer ∧
    ((trainFromText mkTokenizer "ab ab" 25).vocab = (trainFromText mkTokenizer "ab ab" 25).vocab ∧
     (trainFromText mkTokenizer "ab ab" 25).decoder = (trainFromText mkTokenizer "ab ab" 25).decoder ∧
     (trainFromText mkTokenizer "ab ab" 25).merges = (trainFromText mkTokenizer "ab ab" 25).merges) :=
  ⟨rfl, c9_train_deterministic "ab ab" 25 mkTokenizer mkTokenizer rfl rfl⟩
